import Mathlib

/-!
# koto-hashi — verification of the durable event-processing pipeline

Shallow embedding of the event queue of the koto-hashi LINE-bot service:
the event store (`eventRepo.ts`) and the processor loop
(`eventProcessor.ts`).  Timestamps (`Date`) are modelled as natural
numbers of milliseconds; the database table is a list of rows together
with a fresh-id counter; JavaScript exceptions are modelled as values of
an error type carried in `Except`.
-/

namespace KotoHashi

/-- The `WebhookEventStatus` enum from the Prisma schema. -/
inductive EventStatus where
  | RECEIVED
  | PROCESSING
  | DONE
  | FAILED_RETRYABLE
  | FAILED_TERMINAL
  | IGNORED
deriving DecidableEq, Repr

/-- One row of the `LineWebhookEvent` table.  Nullable columns are
`Option`; `Date` columns are milliseconds as `Nat`. -/
structure LineWebhookEvent where
  id : Nat
  webhookEventId : String
  status : EventStatus
  receivedAt : Nat
  lineTimestampMs : Nat
  eventType : String
  sourceUserId : Option String
  sourceGroupId : Option String
  isMentioned : Option Bool
  replyToken : Option String
  quoteToken : Option String
  messageText : Option String
  messageId : Option String
  attemptCount : Nat
  nextTryAt : Option Nat
  lastErrorMessage : Option String
deriving DecidableEq, Repr

/-- The `LineWebhookEvent` table: its rows plus a counter that supplies
fresh primary keys (the database generates a fresh cuid per insert). -/
structure Store where
  rows : List LineWebhookEvent
  nextId : Nat
deriving DecidableEq, Repr

/-- JavaScript truthiness of a nullable string column: `null` and the
empty string are falsy. -/
def strTruthy : Option String → Bool
  | none => false
  | some s => !s.isEmpty

/-- JavaScript truthiness of the nullable `isMentioned` boolean column. -/
def boolTruthy : Option Bool → Bool
  | none => false
  | some b => b

/-- `nextTryAt: { lte: now }` — a SQL comparison, so a `NULL` value never
matches. -/
def nextTryLe (o : Option Nat) (now : Nat) : Bool :=
  match o with
  | none => false
  | some t => decide (t ≤ now)

/-- Lease duration, `LEASE_TIME_MS` in `eventRepo.ts`. -/
def LEASE_TIME_MS : Nat := 60000

/-- Row data accepted by `insertNewEventsBatch` (`NewEventRow`). -/
structure NewEventRow where
  webhookEventId : String
  lineTimestampMs : Nat
  eventType : String
  sourceUserId : Option String
  replyToken : Option String
  quoteToken : Option String
  messageText : Option String
  messageId : Option String
deriving DecidableEq, Repr

/-- The row created for a `NewEventRow` by `insertNewEventsBatch`:
`status: 'RECEIVED'`, `receivedAt`/`nextTryAt` set to `now`, everything
else copied; columns the insert does not mention are `NULL`. -/
def mkInsertedEvent (row : NewEventRow) (now : Nat) (id : Nat) :
    LineWebhookEvent :=
  { id := id
    webhookEventId := row.webhookEventId
    status := .RECEIVED
    receivedAt := now
    lineTimestampMs := row.lineTimestampMs
    eventType := row.eventType
    sourceUserId := row.sourceUserId
    sourceGroupId := none
    isMentioned := none
    replyToken := row.replyToken
    quoteToken := row.quoteToken
    messageText := row.messageText
    messageId := row.messageId
    attemptCount := 0
    nextTryAt := some now
    lastErrorMessage := none }

/-- Does the store already hold a row with this `webhookEventId`?  That
column carries a unique index, so `createMany({ skipDuplicates: true })`
silently drops a row that conflicts on it. -/
def hasWebhookEventId (s : Store) (w : String) : Bool :=
  s.rows.any (fun e => e.webhookEventId == w)

/-- One row of the bulk insert: appended unless its `webhookEventId`
conflicts with a row already present (`ON CONFLICT DO NOTHING`). -/
def insertOneRow (now : Nat) (s : Store) (row : NewEventRow) : Store :=
  if hasWebhookEventId s row.webhookEventId then s
  else
    { rows := s.rows ++ [mkInsertedEvent row now s.nextId]
      nextId := s.nextId + 1 }

/-- `insertNewEventsBatch(rows)` — idempotent bulk insert: each row is
appended unless its `webhookEventId` already exists (including a
duplicate earlier in the same batch, as `ON CONFLICT DO NOTHING` skips
those as well). -/
def insertNewEventsBatch (rows : List NewEventRow) (now : Nat)
    (store : Store) : Store :=
  if rows.length == 0 then store
  else rows.foldl (insertOneRow now) store

/-- The `where` clause of `fetchDueEvents`:
`status ∈ {RECEIVED, FAILED_RETRYABLE, PROCESSING}` and
`nextTryAt ≤ now`. -/
def fetchDueWhere (e : LineWebhookEvent) (now : Nat) : Bool :=
  (e.status == .RECEIVED || e.status == .FAILED_RETRYABLE ||
    e.status == .PROCESSING) && nextTryLe e.nextTryAt now

/-- Sort order of `fetchDueEvents`: `nextTryAt asc` (nulls first, the
database ascending default here), then `lineTimestampMs asc`. -/
def dueLe (a b : LineWebhookEvent) : Bool :=
  match a.nextTryAt, b.nextTryAt with
  | none, _ => true
  | some _, none => false
  | some x, some y =>
      if x == y then decide (a.lineTimestampMs ≤ b.lineTimestampMs)
      else decide (x < y)

/-- `fetchDueEvents(limit, now)` — due rows, ordered by
`(nextTryAt asc, lineTimestampMs asc)`, capped at `limit`. -/
def fetchDueEvents (limit : Nat) (now : Nat) (store : Store) :
    List LineWebhookEvent :=
  (((store.rows.filter (fun e => fetchDueWhere e now)).mergeSort
    dueLe).take limit)

/-- The `where` clause of `claimEventForProcessing`: the row id plus the
same `(status, nextTryAt ≤ now)` predicate as `fetchDueEvents`. -/
def claimWhere (e : LineWebhookEvent) (now : Nat) : Bool :=
  (e.status == .RECEIVED || e.status == .FAILED_RETRYABLE ||
    e.status == .PROCESSING) && nextTryLe e.nextTryAt now

/-- The `data` of `claimEventForProcessing`: `status: 'PROCESSING'`,
`attemptCount` incremented, `nextTryAt` set to the lease expiry. -/
def claimUpdate (e : LineWebhookEvent) (now : Nat) : LineWebhookEvent :=
  { e with
    status := .PROCESSING
    attemptCount := e.attemptCount + 1
    nextTryAt := some (now + LEASE_TIME_MS) }

/-- `claimEventForProcessing(id, now)` — `updateMany` over the rows
matching `(id, claimWhere)`; returns the new store and
`result.count === 1`. -/
def claimEventForProcessing (id : Nat) (now : Nat) (store : Store) :
    Store × Bool :=
  let hits := fun e : LineWebhookEvent => e.id == id && claimWhere e now
  let count := (store.rows.filter hits).length
  ({ store with
      rows := store.rows.map (fun e => if hits e then claimUpdate e now else e) },
    count == 1)

/-- `markEventDone(id)` — `status: 'DONE'`, `nextTryAt: null`,
`lastErrorMessage: null` on the row with the given id. -/
def markEventDone (id : Nat) (store : Store) : Store :=
  { store with
    rows := store.rows.map (fun e =>
      if e.id == id then
        { e with status := .DONE, nextTryAt := none, lastErrorMessage := none }
      else e) }

/-- `markEventIgnored(id, reason)` — `status: 'IGNORED'`,
`nextTryAt: null`, `lastErrorMessage: reason`. -/
def markEventIgnored (id : Nat) (reason : String) (store : Store) : Store :=
  { store with
    rows := store.rows.map (fun e =>
      if e.id == id then
        { e with status := .IGNORED, nextTryAt := none,
                 lastErrorMessage := some reason }
      else e) }

/-- `markEventRetryableFailure(id, message, nextTryAt)` —
`status: 'FAILED_RETRYABLE'` with the supplied next try time. -/
def markEventRetryableFailure (id : Nat) (message : String)
    (nextTryAt : Nat) (store : Store) : Store :=
  { store with
    rows := store.rows.map (fun e =>
      if e.id == id then
        { e with status := .FAILED_RETRYABLE,
                 lastErrorMessage := some message,
                 nextTryAt := some nextTryAt }
      else e) }

/-- `markEventTerminalFailure(id, message)` —
`status: 'FAILED_TERMINAL'`, `nextTryAt: null`. -/
def markEventTerminalFailure (id : Nat) (message : String)
    (store : Store) : Store :=
  { store with
    rows := store.rows.map (fun e =>
      if e.id == id then
        { e with status := .FAILED_TERMINAL, nextTryAt := none,
                 lastErrorMessage := some message }
      else e) }

/-- Modelled from the spec: `hasUnsendEventForMessageId` is imported by
`eventProcessor.ts` from `eventRepo.ts`, but its definition is not among
the provided sources.  Per the spec it is a point lookup that detects a
retraction (`unsend`) event already persisted for the given message
identifier. -/
def hasUnsendEventForMessageId (messageId : String) (store : Store) : Bool :=
  store.rows.any (fun e =>
    e.eventType == "unsend" && e.messageId == some messageId)

/-! ## Processor (`eventProcessor.ts`) -/

/-- A raised JavaScript value, as the processor distinguishes them:
a `TerminalError`, an `HTTPFetchError` (with its HTTP `status`), or any
other thrown value reduced to its message. -/
inductive JsError where
  | terminalError (message : String)
  | httpFetchError (status : Nat) (message : String)
  | otherError (message : String)
deriving DecidableEq, Repr

/-- `toErrorMessage(err)` — the error's message string. -/
def toErrorMessage : JsError → String
  | .terminalError m => m
  | .httpFetchError _ m => m
  | .otherError m => m

/-- `isRetryableError(err)` — `TerminalError` is not retryable; an
`HTTPFetchError` is retryable exactly for status `0`, `408` or `≥ 500`;
anything else is retryable. -/
def isRetryableError : JsError → Bool
  | .terminalError _ => false
  | .httpFetchError status _ =>
      status == 0 || status == 408 || decide (status ≥ 500)
  | .otherError _ => true

/-- `BATCH_SIZE` in `eventProcessor.ts`. -/
def BATCH_SIZE : Nat := 50

/-- `MAX_ATTEMPTS` in `eventProcessor.ts`. -/
def MAX_ATTEMPTS : Nat := 5

/-- `calcNextTryAt(attempt)` — exponential backoff:
`now + min(60_000, 1_000 * 2 ** (attempt - 1))` milliseconds. -/
def calcNextTryAt (attempt : Nat) (nowMs : Nat) : Nat :=
  nowMs + min 60000 (1000 * 2 ^ (attempt - 1))

/-- Result type of `processEvent`. -/
inductive ProcessResult where
  | done
  | ignored (reason : String)
deriving DecidableEq, Repr

/-- Arguments passed to `handleTextEvent`. -/
structure TextEventArgs where
  replyToken : String
  quoteToken : String
  messageText : String
  sourceUserId : Option String
  sourceGroupId : Option String
deriving DecidableEq, Repr

/-- Arguments passed to `handleLanguageRegistration`. -/
structure LanguageRegistrationArgs where
  sourceUserId : Option String
  replyToken : String
  quoteToken : String
  groupId : String
  messageText : String
deriving DecidableEq, Repr

/-- One invocation of an external handler, with its arguments. -/
inductive HandlerCall where
  | text (args : TextEventArgs)
  | unsend (messageId : String)
  | langReg (args : LanguageRegistrationArgs)
deriving DecidableEq, Repr

/-- The three external handler contracts; each may raise. -/
structure Handlers where
  handleTextEvent : TextEventArgs → Except JsError Unit
  handleUnsendEvent : String → Except JsError Unit
  handleLanguageRegistration : LanguageRegistrationArgs → Except JsError Unit

/-- `processEvent(event, …)` — classifies one claimed event and routes
it to a handler.  Returns the list of handler invocations made together
with the outcome (`done`/`ignored`, or a propagated error). -/
def processEvent (h : Handlers) (store : Store) (event : LineWebhookEvent) :
    List HandlerCall × Except JsError ProcessResult :=
  if event.eventType == "message" then
      if !strTruthy event.messageId then
        ([], .ok (.ignored "No message ID"))
      else
        let mid := event.messageId.getD ""
        if hasUnsendEventForMessageId mid store then
          match h.handleUnsendEvent mid with
          | .ok _ =>
              ([.unsend mid],
                .ok (.ignored ("Message already unsent: " ++ mid)))
          | .error e => ([.unsend mid], .error e)
        else if !strTruthy event.messageText then
          ([], .ok (.ignored "No message text"))
        else if !strTruthy event.replyToken then
          ([], .ok (.ignored "No reply token"))
        else if !strTruthy event.quoteToken then
          ([], .ok (.ignored "No quote token"))
        else if boolTruthy event.isMentioned then
          if !strTruthy event.sourceGroupId then
            ([], .ok (.ignored "No source group ID for mentioned message"))
          else
            let args : LanguageRegistrationArgs :=
              { sourceUserId := event.sourceUserId
                replyToken := event.replyToken.getD ""
                quoteToken := event.quoteToken.getD ""
                groupId := event.sourceGroupId.getD ""
                messageText := event.messageText.getD "" }
            match h.handleLanguageRegistration args with
            | .ok _ => ([.langReg args], .ok .done)
            | .error e => ([.langReg args], .error e)
        else
          let args : TextEventArgs :=
            { replyToken := event.replyToken.getD ""
              quoteToken := event.quoteToken.getD ""
              messageText := event.messageText.getD ""
              sourceUserId := event.sourceUserId
              sourceGroupId := event.sourceGroupId }
          match h.handleTextEvent args with
          | .ok _ => ([.text args], .ok .done)
          | .error e => ([.text args], .error e)
  else if event.eventType == "unsend" then
      if !strTruthy event.messageId then
        ([], .ok (.ignored "No message ID"))
      else
        let mid := event.messageId.getD ""
        match h.handleUnsendEvent mid with
        | .ok _ => ([.unsend mid], .ok .done)
        | .error e => ([.unsend mid], .error e)
  else ([], .ok (.ignored ("Unsupported event type: " ++ event.eventType)))

/-- The `catch` branch of the processor loop: terminal failure when the
attempt budget is exhausted or the error is not retryable, otherwise a
retryable failure scheduled at `calcNextTryAt`. -/
def settleFailure (id : Nat) (currentAttempt : Nat) (err : JsError)
    (now : Nat) (store : Store) : Store :=
  if decide (currentAttempt ≥ MAX_ATTEMPTS) || !isRetryableError err then
    markEventTerminalFailure id (toErrorMessage err) store
  else
    markEventRetryableFailure id (toErrorMessage err)
      (calcNextTryAt currentAttempt now) store

/-- Trace record of one iteration of the processor loop: which event it
handled, whether the claim succeeded and, if so, the dispatch outcome. -/
structure StepLog where
  eventId : Nat
  claimed : Bool
  dispatched : Option (Except JsError ProcessResult)
deriving Repr

/-- One iteration of the processor loop body: claim, dispatch, write the
outcome back.  A dispatch error is caught and persisted; it does not
escape the iteration. -/
def stepEvent (h : Handlers) (now : Nat) (event : LineWebhookEvent)
    (store : Store) : Store × StepLog :=
  let claimedPair := claimEventForProcessing event.id now store
  let store1 := claimedPair.1
  if !claimedPair.2 then
    (store1, { eventId := event.id, claimed := false, dispatched := none })
  else
    let currentAttempt := event.attemptCount + 1
    let outcome := (processEvent h store1 event).2
    let log : StepLog :=
      { eventId := event.id, claimed := true, dispatched := some outcome }
    match outcome with
    | .ok .done => (markEventDone event.id store1, log)
    | .ok (.ignored reason) => (markEventIgnored event.id reason store1, log)
    | .error err =>
        (settleFailure event.id currentAttempt err now store1, log)

/-- The `for` loop of `runProcessorOnce` over a fetched batch. -/
def processBatch (h : Handlers) (now : Nat)
    (events : List LineWebhookEvent) (store : Store) :
    Store × List StepLog :=
  match events with
  | [] => (store, [])
  | e :: rest =>
      let step := stepEvent h now e store
      let next := processBatch h now rest step.1
      (next.1, step.2 :: next.2)

/-- One processing pass of `runProcessorOnce`: capture `now`, fetch up
to `BATCH_SIZE` due events, then run the loop. -/
def runProcessorOnce (h : Handlers) (now : Nat) (store : Store) :
    Store × List StepLog :=
  processBatch h now (fetchDueEvents BATCH_SIZE now store) store

/-! ## Single-flight guard and idle wait

The module-level `activeRun` variable of `eventProcessor.ts` holds the
in-flight pass's promise (identified here by a number) or `null`.  The
guard check and assignment at the top of `runProcessorOnce` run
synchronously on the single JavaScript thread, so they are modelled as
one atomic state transition. -/

/-- The module state: `activeRun`, the in-flight pass, if any. -/
structure ProcState where
  activeRun : Option Nat
deriving DecidableEq, Repr

/-- The single-flight guard of `runProcessorOnce`: when a pass is
in-flight, return its promise unchanged and start nothing; otherwise
start a fresh pass and record it.  Returns the promise handed to the
caller, the new module state, and whether a new pass was started (only a
started pass invokes `fetchDueEvents`/`claimEventForProcessing`). -/
def runProcessorOnceGuard (st : ProcState) (freshPass : Nat) :
    Nat × ProcState × Bool :=
  match st.activeRun with
  | some p => (p, st, false)
  | none => (freshPass, { activeRun := some freshPass }, true)

/-- The `finally` of the pass: clear `activeRun`. -/
def finishActiveRun (_st : ProcState) : ProcState :=
  { activeRun := none }

/-- How an in-flight pass's promise settles: fulfilled or rejected, at a
given number of milliseconds from the call to `waitForProcessorIdle`. -/
inductive PassSettle where
  | fulfilled (t : Nat)
  | rejected (t : Nat)
deriving DecidableEq, Repr

/-- When a pass settles, regardless of how. -/
def settleTime : PassSettle → Nat
  | .fulfilled t => t
  | .rejected t => t

/-- `waitForProcessorIdle(timeoutMs)` — `true` at once when no pass is
in-flight; otherwise it races `activeRun.then(() => true, () => true)`
(true on either settlement) against a `timeoutMs` sleep yielding
`false`, so the result is `true` exactly when the pass settles first. -/
def waitForProcessorIdle (activeRun : Option PassSettle)
    (timeoutMs : Nat) : Bool :=
  match activeRun with
  | none => true
  | some s => decide (settleTime s < timeoutMs)

/-! ## Auxiliary predicates used to state the claims -/

/-- The statuses the spec calls terminal. -/
def isTerminalStatus (s : EventStatus) : Bool :=
  s == .DONE || s == .IGNORED || s == .FAILED_TERMINAL

/-- A sequence of `claimEventForProcessing` calls (id, now pairs). -/
def claimSeq (ops : List (Nat × Nat)) (store : Store) : Store :=
  ops.foldl (fun s op => (claimEventForProcessing op.1 op.2 s).1) store

/-- A sequence of `insertNewEventsBatch` calls (rows, now pairs). -/
def insertSeq (batches : List (List NewEventRow × Nat)) (store : Store) :
    Store :=
  batches.foldl (fun s b => insertNewEventsBatch b.1 b.2 s) store

/-- Number of rows carrying a given `webhookEventId`. -/
def countWebhookId (w : String) (s : Store) : Nat :=
  (s.rows.filter (fun e => e.webhookEventId == w)).length

/-- The row with the given id is in a terminal state (`DONE`, `IGNORED`
or `FAILED_TERMINAL`) with `nextTryAt` cleared, and stays that way under
any sequence of claim calls, none of which can ever succeed on it. -/
def terminallyClosed (id : Nat) (s : Store) : Prop :=
  ∃ row', s.rows.filter (fun e => e.id == id) = [row'] ∧
    isTerminalStatus row'.status = true ∧ row'.nextTryAt = none ∧
    ∀ ops : List (Nat × Nat),
      (claimSeq ops s).rows.filter (fun e => e.id == id) = [row'] ∧
      ∀ now2, (claimEventForProcessing id now2 (claimSeq ops s)).2 = false

/-- Handlers that always succeed (used to instantiate theorems). -/
def okHandlers : Handlers :=
  { handleTextEvent := fun _ => .ok ()
    handleUnsendEvent := fun _ => .ok ()
    handleLanguageRegistration := fun _ => .ok () }

/-- Handlers whose plain-message handler raises a generic — hence
retryable — error (used to instantiate theorems). -/
def failingHandlers : Handlers :=
  { handleTextEvent := fun _ => .error (.otherError "boom")
    handleUnsendEvent := fun _ => .ok ()
    handleLanguageRegistration := fun _ => .ok () }

/-- A concrete due `message` row used to instantiate theorems. -/
def sampleDueRow : LineWebhookEvent :=
  { id := 1
    webhookEventId := "W1"
    status := .RECEIVED
    receivedAt := 0
    lineTimestampMs := 0
    eventType := "message"
    sourceUserId := none
    sourceGroupId := none
    isMentioned := none
    replyToken := some "r"
    quoteToken := some "q"
    messageText := some "hi"
    messageId := some "m1"
    attemptCount := 0
    nextTryAt := some 1000
    lastErrorMessage := none }

/-- A store holding just `sampleDueRow`. -/
def sampleStore : Store := { rows := [sampleDueRow], nextId := 2 }

/-- `sampleDueRow` on its fifth attempt (four already counted). -/
def budgetRow : LineWebhookEvent :=
  { sampleDueRow with attemptCount := 4 }

/-- A store holding just `budgetRow`. -/
def budgetStore : Store := { rows := [budgetRow], nextId := 2 }

/-- A persisted retraction (`unsend`) row for message `m1`. -/
def unsendRow : LineWebhookEvent :=
  { sampleDueRow with
    id := 2
    webhookEventId := "W2"
    eventType := "unsend"
    replyToken := none
    quoteToken := none
    messageText := none }

/-- A store holding the retraction row (and the message row). -/
def unsendStore : Store := { rows := [sampleDueRow, unsendRow], nextId := 3 }

/-- A concrete insert row used to instantiate theorems. -/
def sampleNewRow : NewEventRow :=
  { webhookEventId := "W1"
    lineTimestampMs := 0
    eventType := "message"
    sourceUserId := none
    replyToken := some "r"
    quoteToken := some "q"
    messageText := some "hi"
    messageId := some "m1" }

/-! ## Helper lemmas -/

/-- Filtering by row id commutes with mapping an id-preserving update. -/
theorem filter_id_map (f : LineWebhookEvent → LineWebhookEvent)
    (hf : ∀ e, (f e).id = e.id) (l : List LineWebhookEvent) (id : Nat) :
    (l.map f).filter (fun e => e.id == id) =
      (l.filter (fun e => e.id == id)).map f := by
  induction l with
  | nil => rfl
  | cons a t ih =>
      simp only [List.map_cons, List.filter_cons, hf a]
      by_cases h : a.id == id
      · simp [h, ih]
      · simp [h, ih]

/-! ## Claims -/

/-- Splitting the claim `where` clause into the id check and the due
predicate. -/
theorem filter_claim_hits (store : Store) (id now : Nat) :
    store.rows.filter (fun e => e.id == id && claimWhere e now) =
      (store.rows.filter (fun e => e.id == id)).filter
        (fun e => claimWhere e now) := by
  rw [List.filter_filter]
  exact List.filter_congr fun a _ => by rw [Bool.and_comm]

/-- The row with the given id, after a claim, when the unique row with
that id is known. -/
theorem claim_rows_filter (store : Store) (id now : Nat)
    (row : LineWebhookEvent)
    (h : store.rows.filter (fun e => e.id == id) = [row]) :
    ((claimEventForProcessing id now store).1).rows.filter
        (fun e => e.id == id) =
      [if row.id == id && claimWhere row now then claimUpdate row now
       else row] := by
  have hf : ∀ e : LineWebhookEvent,
      ((fun e : LineWebhookEvent =>
        if e.id == id && claimWhere e now then claimUpdate e now
        else e) e).id = e.id := by
    intro e
    by_cases hc : e.id == id && claimWhere e now
    · simp [hc, claimUpdate]
    · simp [hc]
  show ((store.rows.map fun e : LineWebhookEvent =>
      if e.id == id && claimWhere e now then claimUpdate e now
      else e).filter fun e : LineWebhookEvent => e.id == id) = _
  rw [filter_id_map _ hf store.rows id, h]
  rfl

/-- C1: `claimEventForProcessing` transitions the row to `PROCESSING`,
increments `attemptCount` by one and sets `nextTryAt = now +
LEASE_TIME_MS`, exactly when the row satisfies the same
`(status ∈ {RECEIVED, FAILED_RETRYABLE, PROCESSING}, nextTryAt ≤ now)`
predicate `fetchDueEvents` filters by; it returns `true` exactly when one
row was updated, and `false` — not an error — when the predicate no
longer holds, leaving the store untouched. -/
theorem claim_conditional_update (store : Store) (id now : Nat)
    (row : LineWebhookEvent)
    (h : store.rows.filter (fun e => e.id == id) = [row]) :
    (∀ e t, claimWhere e t = fetchDueWhere e t) ∧
    (∀ e limit t, e ∈ fetchDueEvents limit t store →
      fetchDueWhere e t = true) ∧
    ((claimEventForProcessing id now store).2 = true ↔
      claimWhere row now = true) ∧
    (claimWhere row now = true →
      ((claimEventForProcessing id now store).1).rows.filter
          (fun e => e.id == id) =
        [{ row with status := .PROCESSING,
                    attemptCount := row.attemptCount + 1,
                    nextTryAt := some (now + LEASE_TIME_MS) }]) ∧
    (claimWhere row now = false →
      claimEventForProcessing id now store = (store, false)) := by
  have hrowid : (row.id == id) = true := by
    have hm : row ∈ store.rows.filter (fun e => e.id == id) := by
      rw [h]; exact List.mem_singleton.mpr rfl
    have hp := List.of_mem_filter hm
    exact hp
  have hcount : (store.rows.filter
      (fun e => e.id == id && claimWhere e now)).length =
      if claimWhere row now then 1 else 0 := by
    rw [filter_claim_hits, h]
    by_cases hc : claimWhere row now
    · simp [List.filter_cons, hc]
    · simp [List.filter_cons, hc]
  refine ⟨fun e t => rfl, ?_, ?_, ?_, ?_⟩
  · intro e limit t he
    simp only [fetchDueEvents] at he
    have h1 := List.mem_of_mem_take he
    have h2 := List.mem_mergeSort.mp h1
    have h3 := List.of_mem_filter h2
    exact h3
  · show ((store.rows.filter
        (fun e => e.id == id && claimWhere e now)).length == 1) = true ↔ _
    rw [hcount]
    by_cases hc : claimWhere row now
    · simp [hc]
    · simp [hc]
  · intro hc
    rw [claim_rows_filter store id now row h, hrowid, hc]
    rfl
  · intro hc
    have hmap : store.rows.map
        (fun e => if e.id == id && claimWhere e now then claimUpdate e now
          else e) = store.rows := by
      have : ∀ e ∈ store.rows,
          (if e.id == id && claimWhere e now then claimUpdate e now
            else e) = e := by
        intro e he
        by_cases hid : (e.id == id) = true
        · have : e ∈ store.rows.filter (fun e => e.id == id) :=
            List.mem_filter.mpr ⟨he, hid⟩
          rw [h, List.mem_singleton] at this
          subst this
          simp [hc]
        · simp [Bool.and_eq_true, hid]
      rw [List.map_eq_map_iff.mpr this, List.map_id']
    show (⟨store.rows.map _, store.nextId⟩,
        ((store.rows.filter _).length == 1)) = (store, false)
    rw [hmap, hcount]
    simp [hc]

/-- Witness for C1: the claim on the sample store succeeds because the
sample row is due. -/
theorem claim_conditional_update_witness :
    (claimEventForProcessing 1 5000 sampleStore).2 = true ↔
      claimWhere sampleDueRow 5000 = true :=
  (claim_conditional_update sampleStore 1 5000 sampleDueRow
    (by decide)).2.2.1

/-- A row in a terminal status never satisfies the claim predicate. -/
theorem claimWhere_of_terminal (e : LineWebhookEvent) (now : Nat)
    (h : isTerminalStatus e.status = true) : claimWhere e now = false := by
  cases hs : e.status <;> simp_all [isTerminalStatus, claimWhere]

/-- The unique row with a given id is itself id-matched. -/
theorem row_id_of_filter (store : Store) (id : Nat)
    (row : LineWebhookEvent)
    (h : store.rows.filter (fun e => e.id == id) = [row]) :
    (row.id == id) = true := by
  have hm : row ∈ store.rows.filter (fun e => e.id == id) := by
    rw [h]; exact List.mem_singleton.mpr rfl
  have hp := List.of_mem_filter hm
  exact hp

/-- A claim call — on any id and any time — leaves a terminal row
untouched. -/
theorem claim_fixes_terminal_row (store : Store) (id : Nat)
    (row : LineWebhookEvent)
    (h : store.rows.filter (fun e => e.id == id) = [row])
    (hterm : isTerminalStatus row.status = true) (id2 now2 : Nat) :
    ((claimEventForProcessing id2 now2 store).1).rows.filter
      (fun e => e.id == id) = [row] := by
  have hf : ∀ e : LineWebhookEvent,
      ((fun e : LineWebhookEvent =>
        if e.id == id2 && claimWhere e now2 then claimUpdate e now2
        else e) e).id = e.id := by
    intro e
    by_cases hc : e.id == id2 && claimWhere e now2
    · simp [hc, claimUpdate]
    · simp [hc]
  show ((store.rows.map fun e : LineWebhookEvent =>
      if e.id == id2 && claimWhere e now2 then claimUpdate e now2
      else e).filter fun e : LineWebhookEvent => e.id == id) = _
  rw [filter_id_map _ hf store.rows id, h]
  simp [claimWhere_of_terminal row now2 hterm]

/-- A claim call on a terminal row reports that no row was updated. -/
theorem claim_false_of_terminal (store : Store) (id now : Nat)
    (row : LineWebhookEvent)
    (h : store.rows.filter (fun e => e.id == id) = [row])
    (hterm : isTerminalStatus row.status = true) :
    (claimEventForProcessing id now store).2 = false := by
  show ((store.rows.filter
      (fun e => e.id == id && claimWhere e now)).length == 1) = false
  rw [filter_claim_hits, h]
  simp [List.filter_cons, claimWhere_of_terminal row now hterm]

/-- A terminal row survives any sequence of claim calls unchanged. -/
theorem claimSeq_fixes_terminal (ops : List (Nat × Nat)) (store : Store)
    (id : Nat) (row : LineWebhookEvent)
    (h : store.rows.filter (fun e => e.id == id) = [row])
    (hterm : isTerminalStatus row.status = true) :
    (claimSeq ops store).rows.filter (fun e => e.id == id) = [row] := by
  induction ops generalizing store with
  | nil => exact h
  | cons op rest ih =>
      simp only [claimSeq, List.foldl_cons]
      exact ih _ (claim_fixes_terminal_row store id row h hterm op.1 op.2)

/-- Applying an id-preserving per-row update that lands the row in a
terminal state with `nextTryAt` cleared closes the row for good. -/
theorem terminallyClosed_of_update (store : Store) (id : Nat)
    (row : LineWebhookEvent)
    (upd : LineWebhookEvent → LineWebhookEvent)
    (hupd : ∀ e, (upd e).id = e.id)
    (h : store.rows.filter (fun e => e.id == id) = [row])
    (hstat : isTerminalStatus (upd row).status = true)
    (hnta : (upd row).nextTryAt = none) :
    terminallyClosed id
      { store with
        rows := store.rows.map (fun e => if e.id == id then upd e else e) }
      := by
  have hf : ∀ e : LineWebhookEvent,
      ((fun e : LineWebhookEvent => if e.id == id then upd e else e) e).id
        = e.id := by
    intro e
    by_cases hc : (e.id == id)
    · simp [hc, hupd]
    · simp [hc]
  have hrowid := row_id_of_filter store id row h
  have hfilter : ((store.rows.map fun e : LineWebhookEvent =>
      if e.id == id then upd e else e).filter
        fun e : LineWebhookEvent => e.id == id) = [upd row] := by
    rw [filter_id_map _ hf store.rows id, h]
    have hid : row.id = id := by simpa using hrowid
    simp [hid]
  refine ⟨upd row, hfilter, hstat, hnta, ?_⟩
  intro ops
  have hseq := claimSeq_fixes_terminal ops { store with rows := store.rows.map (fun e => if e.id == id then upd e else e) } id (upd row) hfilter hstat
  exact ⟨hseq, fun now2 =>
    claim_false_of_terminal _ id now2 (upd row) hseq hstat⟩

/-- C2: after any of `markEventDone`, `markEventIgnored` or
`markEventTerminalFailure`, the row is in a terminal status
(`DONE`/`IGNORED`/`FAILED_TERMINAL`) with `nextTryAt = null`, and no
later claim call — in any sequence, at any time — can ever succeed on
it: terminal rows are never re-claimed. -/
theorem terminal_states_absorb (store : Store) (id : Nat)
    (row : LineWebhookEvent) (reason msg : String)
    (h : store.rows.filter (fun e => e.id == id) = [row]) :
    terminallyClosed id (markEventDone id store) ∧
    terminallyClosed id (markEventIgnored id reason store) ∧
    terminallyClosed id (markEventTerminalFailure id msg store) := by
  refine ⟨?_, ?_, ?_⟩
  · exact terminallyClosed_of_update store id row
      (fun e => { e with status := .DONE, nextTryAt := none,
                         lastErrorMessage := none })
      (fun e => rfl) h rfl rfl
  · exact terminallyClosed_of_update store id row
      (fun e => { e with status := .IGNORED, nextTryAt := none,
                         lastErrorMessage := some reason })
      (fun e => rfl) h rfl rfl
  · exact terminallyClosed_of_update store id row
      (fun e => { e with status := .FAILED_TERMINAL, nextTryAt := none,
                         lastErrorMessage := some msg })
      (fun e => rfl) h rfl rfl

/-- Witness for C2: marking the sample row done closes it. -/
theorem terminal_states_absorb_witness :
    terminallyClosed 1 (markEventDone 1 sampleStore) :=
  (terminal_states_absorb sampleStore 1 sampleDueRow "reason" "msg"
    (by decide)).1

/-- A generic per-row update filtered at its own id. -/
theorem update_by_id_filter (store : Store) (id : Nat)
    (row : LineWebhookEvent)
    (upd : LineWebhookEvent → LineWebhookEvent)
    (hupd : ∀ e, (upd e).id = e.id)
    (h : store.rows.filter (fun e => e.id == id) = [row]) :
    ((store.rows.map fun e : LineWebhookEvent =>
      if e.id == id then upd e else e).filter
        fun e : LineWebhookEvent => e.id == id) = [upd row] := by
  have hf : ∀ e : LineWebhookEvent,
      ((fun e : LineWebhookEvent => if e.id == id then upd e else e) e).id
        = e.id := by
    intro e
    by_cases hc : (e.id == id)
    · simp [hc, hupd]
    · simp [hc]
  rw [filter_id_map _ hf store.rows id, h]
  have hid : row.id = id := by
    simpa using row_id_of_filter store id row h
  simp [hid]

/-- C3: when a claimed event's dispatch raises and the current attempt
number — the fetched `attemptCount` plus one — has reached
`MAX_ATTEMPTS = 5`, the loop marks the event `FAILED_TERMINAL` no matter
whether the error was retryable, never `FAILED_RETRYABLE`; below the
budget, a retryable error marks it `FAILED_RETRYABLE` with a strictly
future `nextTryAt`. -/
theorem attempt_budget_forces_terminal (hnd : Handlers) (now : Nat)
    (event : LineWebhookEvent) (store : Store) (err : JsError)
    (row : LineWebhookEvent)
    (hclaim : (claimEventForProcessing event.id now store).2 = true)
    (herr : (processEvent hnd
      (claimEventForProcessing event.id now store).1 event).2 = .error err)
    (hrow : ((claimEventForProcessing event.id now store).1).rows.filter
      (fun e => e.id == event.id) = [row]) :
    (event.attemptCount + 1 ≥ MAX_ATTEMPTS →
      ((stepEvent hnd now event store).1).rows.filter
          (fun e => e.id == event.id) =
        [{ row with status := .FAILED_TERMINAL, nextTryAt := none,
                    lastErrorMessage := some (toErrorMessage err) }]) ∧
    (event.attemptCount + 1 < MAX_ATTEMPTS → isRetryableError err = true →
      ((stepEvent hnd now event store).1).rows.filter
          (fun e => e.id == event.id) =
        [{ row with status := .FAILED_RETRYABLE,
                    lastErrorMessage := some (toErrorMessage err),
                    nextTryAt :=
                      some (calcNextTryAt (event.attemptCount + 1) now) }] ∧
      now < calcNextTryAt (event.attemptCount + 1) now) := by
  have hstep : (stepEvent hnd now event store).1 =
      settleFailure event.id (event.attemptCount + 1) err now
        (claimEventForProcessing event.id now store).1 := by
    simp only [stepEvent, hclaim, Bool.not_true, Bool.false_eq_true,
      if_false, herr]
  constructor
  · intro hbudget
    have hcond : (decide (event.attemptCount + 1 ≥ MAX_ATTEMPTS) ||
        !isRetryableError err) = true := by
      simp [hbudget]
    rw [hstep]
    simp only [settleFailure, hcond, if_true]
    exact update_by_id_filter _ event.id row _ (fun e => rfl) hrow
  · intro hbudget hretry
    have hcond : (decide (event.attemptCount + 1 ≥ MAX_ATTEMPTS) ||
        !isRetryableError err) = false := by
      simp [hretry]
      omega
    rw [hstep]
    simp only [settleFailure, hcond, Bool.false_eq_true, if_false]
    refine ⟨update_by_id_filter _ event.id row _ (fun e => rfl) hrow, ?_⟩
    have hpos : 0 < min 60000 (1000 * 2 ^ (event.attemptCount + 1 - 1)) := by
      have h2 : 0 < 2 ^ (event.attemptCount + 1 - 1) := Nat.pos_pow_of_pos _ (by decide)
      have : 0 < 1000 * 2 ^ (event.attemptCount + 1 - 1) :=
        Nat.mul_pos (by decide) h2
      exact Nat.lt_min.mpr ⟨by decide, this⟩
    exact Nat.lt_add_of_pos_right hpos

/-- Witness for C3: the sample row on its fifth attempt, failing with an
otherwise retryable error, is still marked terminal. -/
theorem attempt_budget_forces_terminal_witness :
    ((stepEvent failingHandlers 5000 budgetRow budgetStore).1).rows.filter
        (fun e => e.id == budgetRow.id) =
      [{ claimUpdate budgetRow 5000 with
          status := .FAILED_TERMINAL
          nextTryAt := none
          lastErrorMessage := some "boom" }] :=
  (attempt_budget_forces_terminal failingHandlers 5000 budgetRow
    budgetStore (.otherError "boom") (claimUpdate budgetRow 5000)
    (by decide) rfl (by decide)).1 (by decide)

/-- C6: a `message` event whose message identifier already has a
persisted retraction dispatches only the retraction handler — never the
plain-message or language-registration handler — and, when that handler
succeeds, returns `ignored`; an `unsend` event with a message identifier
dispatches the retraction handler and returns `done`. -/
theorem retraction_wins_dispatch (hnd : Handlers) (store : Store)
    (event : LineWebhookEvent) (mid : String)
    (hty : event.eventType = "message")
    (hmid : event.messageId = some mid)
    (hne : mid ≠ "")
    (hun : hasUnsendEventForMessageId mid store = true) :
    ((processEvent hnd store event).1 = [.unsend mid] ∧
      (hnd.handleUnsendEvent mid = .ok () →
        (processEvent hnd store event).2 =
          .ok (.ignored ("Message already unsent: " ++ mid)))) ∧
    (∀ ev2, ev2.eventType = "unsend" → ev2.messageId = some mid →
      (processEvent hnd store ev2).1 = [.unsend mid] ∧
      (hnd.handleUnsendEvent mid = .ok () →
        (processEvent hnd store ev2).2 = .ok .done)) := by
  have hie : mid.isEmpty = false := by
    rcases hb : mid.isEmpty with _ | _
    · rfl
    · exact absurd ((String.isEmpty_iff mid).mp hb) hne
  constructor
  · cases hu : hnd.handleUnsendEvent mid with
    | ok u =>
        refine ⟨?_, fun _ => ?_⟩ <;>
          simp [processEvent, hty, hmid, strTruthy, hie, hun, hu]
    | error e =>
        refine ⟨?_, fun hok => ?_⟩
        · simp [processEvent, hty, hmid, strTruthy, hie, hun, hu]
        · simp at hok
  · intro ev2 hty2 hmid2
    cases hu : hnd.handleUnsendEvent mid with
    | ok u =>
        refine ⟨?_, fun _ => ?_⟩ <;>
          simp [processEvent, hty2, hmid2, strTruthy, hie, hu]
    | error e =>
        refine ⟨?_, fun hok => ?_⟩
        · simp [processEvent, hty2, hmid2, strTruthy, hie, hu]
        · simp at hok

/-- Witness for C6: the sample message event, with a retraction for
`m1` persisted, yields exactly one retraction-handler call. -/
theorem retraction_wins_dispatch_witness :
    (processEvent okHandlers unsendStore sampleDueRow).1 =
      [.unsend "m1"] :=
  (retraction_wins_dispatch okHandlers unsendStore sampleDueRow "m1"
    rfl rfl (by decide) (by decide)).1.1

/-- C4: error retryability classification: a `TerminalError` is never
retryable; an HTTP platform error with a 4xx status other than 408 is
not retryable; status 0, 408 or any 5xx is retryable; every other raised
error is retryable by default. -/
theorem error_retryability_classification :
    (∀ m, isRetryableError (.terminalError m) = false) ∧
    (∀ s m, 400 ≤ s → s < 500 → s ≠ 408 →
      isRetryableError (.httpFetchError s m) = false) ∧
    (∀ s m, s = 0 ∨ s = 408 ∨ 500 ≤ s →
      isRetryableError (.httpFetchError s m) = true) ∧
    (∀ m, isRetryableError (.otherError m) = true) := by
  refine ⟨fun m => rfl, ?_, ?_, fun m => rfl⟩
  · intro s m h1 h2 h3
    simp only [isRetryableError, Bool.or_eq_false_iff, beq_eq_false_iff_ne,
      ne_eq, decide_eq_false_iff_not, not_le]
    omega
  · intro s m h
    simp only [isRetryableError, Bool.or_eq_true, beq_iff_eq,
      decide_eq_true_eq]
    omega

/-- Witness for C4: a 403 platform error is classified non-retryable. -/
theorem error_retryability_classification_witness :
    isRetryableError (.httpFetchError 403 "forbidden") = false :=
  error_retryability_classification.2.1 403 "forbidden"
    (by decide) (by decide) (by decide)

/-- C5: the retry delay before the next attempt is
`min(60s, 1s * 2 ^ (attempt - 1))`; for attempts 1..7 the delays are
exactly 1s, 2s, 4s, 8s, 16s, 32s, 60s. -/
theorem retry_delay_backoff (now : Nat) :
    calcNextTryAt 1 now = now + 1000 ∧
    calcNextTryAt 2 now = now + 2000 ∧
    calcNextTryAt 3 now = now + 4000 ∧
    calcNextTryAt 4 now = now + 8000 ∧
    calcNextTryAt 5 now = now + 16000 ∧
    calcNextTryAt 6 now = now + 32000 ∧
    calcNextTryAt 7 now = now + 60000 ∧
    ∀ n, 1 ≤ n → calcNextTryAt n now = now + min 60000 (1000 * 2 ^ (n - 1)) := by
  refine ⟨rfl, rfl, rfl, rfl, rfl, rfl, rfl, fun n _ => rfl⟩

/-- Witness for C5 at attempt 7. -/
theorem retry_delay_backoff_witness :
    calcNextTryAt 7 0 = 0 + min 60000 (1000 * 2 ^ (7 - 1)) :=
  (retry_delay_backoff 0).2.2.2.2.2.2.2 7 (by decide)

/-- C7: the single-flight guard: a call made while a pass is in-flight
returns that pass's promise, leaves the module state unchanged and
starts no second pass (so `fetchDueEvents`/`claimEventForProcessing`
are not invoked again); once the pass completes (`finally` clears
`activeRun`), the next call starts a fresh pass. -/
theorem single_flight_guard (st : ProcState) (p fresh : Nat)
    (h : st.activeRun = some p) :
    runProcessorOnceGuard st fresh = (p, st, false) ∧
    runProcessorOnceGuard (finishActiveRun st) fresh =
      (fresh, { activeRun := some fresh }, true) := by
  unfold runProcessorOnceGuard finishActiveRun
  rw [h]
  exact ⟨rfl, rfl⟩

/-- Witness for C7 with pass 7 in flight. -/
theorem single_flight_guard_witness :
    runProcessorOnceGuard { activeRun := some 7 } 9 =
      (7, { activeRun := some 7 }, false) :=
  (single_flight_guard { activeRun := some 7 } 7 9 rfl).1

/-- C10: `waitForProcessorIdle` never rejects (it is a total boolean
outcome); it resolves `true` immediately when no pass is in-flight, and
`true` whenever the in-flight pass settles — fulfilled or rejected —
before the timeout elapses; it resolves `false` only when the timeout
elapses while the pass is still unsettled. -/
theorem idle_wait_settlement (ar : Option PassSettle) (T : Nat) :
    (ar = none → waitForProcessorIdle ar T = true) ∧
    (∀ t, (ar = some (.fulfilled t) ∨ ar = some (.rejected t)) → t < T →
      waitForProcessorIdle ar T = true) ∧
    (waitForProcessorIdle ar T = false →
      ∃ s, ar = some s ∧ T ≤ settleTime s) := by
  refine ⟨?_, ?_, ?_⟩
  · intro h; rw [h]; rfl
  · intro t h ht
    rcases h with h | h <;> rw [h] <;>
      simp [waitForProcessorIdle, settleTime, ht]
  · intro h
    cases ar with
    | none => simp [waitForProcessorIdle] at h
    | some s =>
        refine ⟨s, rfl, ?_⟩
        by_contra hc
        simp only [not_le] at hc
        simp [waitForProcessorIdle, hc] at h

/-- Witness for C10: a pass that rejects 3ms in, against a 10ms timeout,
still counts as idle. -/
theorem idle_wait_settlement_witness :
    waitForProcessorIdle (some (.rejected 3)) 10 = true :=
  (idle_wait_settlement (some (.rejected 3)) 10).2.1 3 (Or.inr rfl)
    (by decide)

/-- `hasWebhookEventId` agrees with a positive row count. -/
theorem hasWebhookEventId_iff_count (s : Store) (w : String) :
    hasWebhookEventId s w = true ↔ 0 < countWebhookId w s := by
  unfold hasWebhookEventId countWebhookId
  rw [List.any_eq_true, List.length_pos]
  constructor
  · rintro ⟨a, h1, h2⟩ hnil
    have hm : a ∈ s.rows.filter (fun e => e.webhookEventId == w) :=
      List.mem_filter.mpr ⟨h1, h2⟩
    rw [hnil] at hm
    cases hm
  · intro h
    rcases List.exists_mem_of_ne_nil _ h with ⟨a, ha⟩
    rcases List.mem_filter.mp ha with ⟨h1, h2⟩
    exact ⟨a, h1, h2⟩

/-- Appending one row adds its own match to the count. -/
theorem countWebhookId_append (s : Store) (e : LineWebhookEvent)
    (w : String) (n : Nat) :
    countWebhookId w { rows := s.rows ++ [e], nextId := n } =
      countWebhookId w s + if e.webhookEventId == w then 1 else 0 := by
  unfold countWebhookId
  rw [List.filter_append, List.length_append]
  by_cases h : e.webhookEventId == w <;> simp [List.filter_cons, h]

/-- Effect of one insert step on the count of a given external id. -/
theorem insertOneRow_countW (w : String) (now : Nat) (s : Store)
    (row : NewEventRow) :
    countWebhookId w (insertOneRow now s row) =
      if countWebhookId w s = 0 ∧ row.webhookEventId = w then 1
      else countWebhookId w s := by
  unfold insertOneRow
  by_cases hhas : hasWebhookEventId s row.webhookEventId
  · rw [if_pos hhas]
    have hpos := (hasWebhookEventId_iff_count s _).mp hhas
    by_cases hw : row.webhookEventId = w
    · rw [hw] at hpos
      rw [if_neg]
      rintro ⟨h0, _⟩
      omega
    · rw [if_neg]
      rintro ⟨_, hww⟩
      exact hw hww
  · rw [if_neg hhas]
    have h0 : ¬ 0 < countWebhookId row.webhookEventId s := fun hc =>
      hhas ((hasWebhookEventId_iff_count s _).mpr hc)
    rw [countWebhookId_append]
    by_cases hw : row.webhookEventId = w
    · have hz : countWebhookId w s = 0 := by rw [← hw]; omega
      simp [mkInsertedEvent, hw, hz]
    · have hne : ((mkInsertedEvent row now s.nextId).webhookEventId == w)
          = false := by
        simp [mkInsertedEvent, hw]
      simp [hne, hw]

/-- Effect of folding a whole batch on the count. -/
theorem foldl_insertOneRow_countW (w : String) (now : Nat)
    (rows : List NewEventRow) (s : Store) :
    countWebhookId w (rows.foldl (insertOneRow now) s) =
      if countWebhookId w s = 0 ∧ ∃ r ∈ rows, r.webhookEventId = w then 1
      else countWebhookId w s := by
  induction rows generalizing s with
  | nil => simp
  | cons r t ih =>
      rw [List.foldl_cons, ih, insertOneRow_countW]
      by_cases h1 : countWebhookId w s = 0
      · by_cases h2 : r.webhookEventId = w
        · simp [h1, h2]
        · simp [h1, h2]
      · simp [h1]

/-- Count characterization of `insertNewEventsBatch`, including its
empty-batch early return. -/
theorem insertNewEventsBatch_countW (w : String) (rows : List NewEventRow)
    (now : Nat) (s : Store) :
    countWebhookId w (insertNewEventsBatch rows now s) =
      if countWebhookId w s = 0 ∧ ∃ r ∈ rows, r.webhookEventId = w then 1
      else countWebhookId w s := by
  unfold insertNewEventsBatch
  by_cases h : rows = []
  · subst h
    simp
  · have hlen : (rows.length == 0) = false := by
      simp [List.length_eq_zero, h]
    rw [hlen]
    simp only [Bool.false_eq_true, if_false]
    exact foldl_insertOneRow_countW w now rows s

/-- C8: insertion is idempotent on the external event identifier: a row
whose `webhookEventId` already exists is silently skipped — never an
error — so after inserting the same identifier any number of times, in
any sequence of batches, exactly one row with it exists. -/
theorem insert_idempotent_on_webhookEventId (w : String)
    (batches : List (List NewEventRow × Nat)) (store : Store)
    (h : countWebhookId w store ≤ 1) :
    countWebhookId w (insertSeq batches store) ≤ 1 ∧
    ((countWebhookId w store = 1 ∨
        ∃ b ∈ batches, ∃ r ∈ b.1, r.webhookEventId = w) →
      countWebhookId w (insertSeq batches store) = 1) := by
  induction batches generalizing store with
  | nil =>
      refine ⟨h, ?_⟩
      rintro (h1 | ⟨b, hb, _⟩)
      · exact h1
      · cases hb
  | cons b t ih =>
      have hchar := insertNewEventsBatch_countW w b.1 b.2 store
      have hle : countWebhookId w (insertNewEventsBatch b.1 b.2 store)
          ≤ 1 := by
        rw [hchar]
        split <;> omega
      have hseq : insertSeq (b :: t) store =
          insertSeq t (insertNewEventsBatch b.1 b.2 store) := by
        simp [insertSeq]
      rw [hseq]
      refine ⟨(ih _ hle).1, ?_⟩
      rintro (h1 | ⟨b2, hb2, hr⟩)
      · have hone : countWebhookId w (insertNewEventsBatch b.1 b.2 store)
            = 1 := by
          rw [hchar, if_neg]
          · exact h1
          · rintro ⟨h0, _⟩
            omega
        exact (ih _ hle).2 (Or.inl hone)
      · rcases List.mem_cons.mp hb2 with hb2 | hb2
        · subst hb2
          have hone : countWebhookId w (insertNewEventsBatch b2.1 b2.2 store)
              = 1 := by
            rw [hchar]
            by_cases h0 : countWebhookId w store = 0
            · rw [if_pos ⟨h0, hr⟩]
            · rw [if_neg]
              · omega
              · rintro ⟨hz, _⟩
                exact h0 hz
          exact (ih _ hle).2 (Or.inl hone)
        · exact (ih _ hle).2 (Or.inr ⟨b2, hb2, hr⟩)

/-- Witness for C8: inserting the same external id in two batches into
an empty store leaves exactly one row. -/
theorem insert_idempotent_witness :
    countWebhookId "W1"
      (insertSeq [([sampleNewRow], 0), ([sampleNewRow], 5)]
        { rows := [], nextId := 0 }) = 1 :=
  (insert_idempotent_on_webhookEventId "W1"
    [([sampleNewRow], 0), ([sampleNewRow], 5)] { rows := [], nextId := 0 }
    (by decide)).2 (Or.inr (by decide))

/-- The loop log entry of one iteration names exactly its event. -/
theorem stepEvent_log_eventId (hnd : Handlers) (now : Nat)
    (e : LineWebhookEvent) (s : Store) :
    (stepEvent hnd now e s).2.eventId = e.id := by
  simp only [stepEvent]
  split
  · rfl
  · split <;> rfl

/-- A claimed iteration always records a dispatch outcome. -/
theorem stepEvent_log_dispatched (hnd : Handlers) (now : Nat)
    (e : LineWebhookEvent) (s : Store) :
    (!(stepEvent hnd now e s).2.claimed ||
      ((stepEvent hnd now e s).2.dispatched).isSome) = true := by
  simp only [stepEvent]
  split
  · rfl
  · split <;> rfl

/-- Every event of a batch produces exactly one loop iteration. -/
theorem processBatch_log_ids (hnd : Handlers) (now : Nat) :
    ∀ (events : List LineWebhookEvent) (s : Store),
      ((processBatch hnd now events s).2.map fun l => l.eventId) =
        events.map fun e => e.id := by
  intro events
  induction events with
  | nil => intro s; rfl
  | cons e t ih =>
      intro s
      simp only [processBatch, List.map_cons]
      rw [stepEvent_log_eventId, ih]

/-- Every iteration of a batch satisfies the claimed-implies-dispatched
record shape. -/
theorem processBatch_log_all (hnd : Handlers) (now : Nat) :
    ∀ (events : List LineWebhookEvent) (s : Store),
      (processBatch hnd now events s).2.all
        (fun l => !l.claimed || l.dispatched.isSome) = true := by
  intro events
  induction events with
  | nil => intro s; rfl
  | cons e t ih =>
      intro s
      simp only [processBatch, List.all_cons]
      rw [stepEvent_log_dispatched, ih]
      rfl

/-- C9: within one pass each claimed event's outcome is independent: the
loop produces exactly one iteration per fetched event — the claim is
attempted for every one of them no matter how any earlier dispatch fared
(a raised dispatch error is caught and persisted, it cannot abort the
pass) — and every iteration whose claim succeeded also records a
dispatch outcome. -/
theorem batch_outcome_isolation (hnd : Handlers) (now : Nat)
    (store : Store) :
    (((runProcessorOnce hnd now store).2.map fun l => l.eventId) =
      (fetchDueEvents BATCH_SIZE now store).map fun e => e.id) ∧
    (∀ (events : List LineWebhookEvent) (s : Store),
      ((processBatch hnd now events s).2.map fun l => l.eventId) =
        events.map fun e => e.id) ∧
    ((runProcessorOnce hnd now store).2.all
      (fun l => !l.claimed || l.dispatched.isSome) = true) :=
  ⟨processBatch_log_ids hnd now _ store, processBatch_log_ids hnd now,
    processBatch_log_all hnd now _ store⟩

end KotoHashi
